import Mathlib

/-!
Verification development for the `dna_util` storage-backend dispatch layer
(`dna_util/io/_local.py`, `dna_util/io/_s3.py`, `dna_util/io/_io.py`).

The Python code is shallowly embedded:

* paths are strings, modelled as `Str := List Char`;
* the local filesystem is a flat model `LocalFS` (a list of directory paths
  and a list of regular-file paths, all fully resolved);
* the object store is a list of object keys (`bucket/key...` strings);
* Python functions that can raise become `Except PyErr` values;
* `os.path` primitives (`normpath`, `expanduser`, `join`, `basename`),
  `str.replace`, `str.split`, `"/".join` and `sorted` are reimplemented
  following CPython's reference semantics;
* `os.walk`, `os.scandir`, `shutil` and the `s3fs.S3FileSystem` client are
  external collaborators and are modelled on the flat filesystem state;
* the thread-pool fan-out is modelled as completing synchronously, and the
  `OSError` behaviour of `os.remove`/`shutil.rmtree` is supplied by oracle
  parameters, since the embedding cannot produce real I/O failures.
-/

/-- Python strings, embedded as lists of characters. -/
abbrev Str := List Char

/-- The Python exception kinds the embedded code can raise. -/
inductive PyErr where
  | valueError
  | typeError
  | nameError
  | osError
  | fileExistsError
deriving DecidableEq

deriving instance DecidableEq for Except

/-! ## Python string and `os.path` primitives -/

/-- Python's `<=` on strings: lexicographic comparison by code point. -/
def strLe : Str → Str → Bool
  | [], _ => true
  | _ :: _, [] => false
  | a :: as, b :: bs => if a = b then strLe as bs else decide (a < b)

/-- `strLe` as a relation, for use with `List.insertionSort`. -/
def strLeP (a b : Str) : Prop := strLe a b = true

/-- Totality of the string order (a proof term used by the `IsTotal`
instance below). -/
def strLe_total : ∀ a b : Str, strLe a b = true ∨ strLe b a = true
  | [], _ => Or.inl rfl
  | _ :: _, [] => Or.inr rfl
  | a :: as, b :: bs => by
    by_cases h : a = b
    · subst h
      simpa [strLe] using strLe_total as bs
    · rcases lt_or_gt_of_ne h with hl | hl
      · exact Or.inl (by simp [strLe, h, hl])
      · exact Or.inr (by simp [strLe, Ne.symm h, hl])

/-- Transitivity of the string order (a proof term used by the `IsTrans`
instance below). -/
def strLe_trans : ∀ a b c : Str,
    strLe a b = true → strLe b c = true → strLe a c = true
  | [], _, _, _, _ => rfl
  | _ :: _, [], _, h1, _ => by simp [strLe] at h1
  | _ :: _, _ :: _, [], _, h2 => by simp [strLe] at h2
  | x :: xs, y :: ys, z :: zs, h1, h2 => by
    by_cases hxy : x = y <;> by_cases hyz : y = z
    · subst hxy; subst hyz
      simp only [strLe, if_pos rfl] at h1 h2 ⊢
      exact strLe_trans xs ys zs h1 h2
    · subst hxy
      simp only [strLe, if_pos rfl, if_neg hyz] at h2 ⊢
      exact h2
    · subst hyz
      simp only [strLe, if_neg hxy] at h1 ⊢
      exact h1
    · simp only [strLe, if_neg hxy, if_neg hyz, decide_eq_true_eq] at h1 h2
      have hxz : x < z := lt_trans h1 h2
      simp [strLe, ne_of_lt hxz, hxz]

instance : DecidableRel strLeP :=
  fun a b => inferInstanceAs (Decidable (strLe a b = true))

instance : IsTotal Str strLeP := ⟨strLe_total⟩

instance : IsTrans Str strLeP := ⟨strLe_trans⟩

/-- Python's `sorted` on a list of strings.  `sorted` is a stable sort for a
total preorder, so any stable sorting algorithm produces the same output;
insertion sort is used because it is structurally recursive (computable by
the kernel). -/
def pySorted (l : List Str) : List Str :=
  List.insertionSort strLeP l

/-- Fuel-driven worker for `replaceAll`.  The fuel starts at the length of
the string and every step consumes at least one character (the patterns used
in this development are never empty), so the fuel never runs out; the fuel
only serves to make the recursion structural. -/
def replaceAllGo (pat repl : Str) : Nat → Str → Str
  | _, [] => []
  | 0, s => s
  | fuel + 1, c :: rest =>
    if pat.isPrefixOf (c :: rest) then
      repl ++ replaceAllGo pat repl fuel ((c :: rest).drop pat.length)
    else
      c :: replaceAllGo pat repl fuel rest

/-- Python's `s.replace(pat, repl)`: replace every non-overlapping occurrence
of `pat` in `s` by `repl`, scanning left to right. -/
def replaceAll (pat repl s : Str) : Str :=
  replaceAllGo pat repl s.length s

/-- Python's `s.split(sep)` for a one-character separator: `"".split` is
`[""]`, and every separator occurrence opens a new (possibly empty) piece. -/
def pySplit (sep : Char) : Str → List Str
  | [] => [[]]
  | c :: rest =>
    if c = sep then [] :: pySplit sep rest
    else
      match pySplit sep rest with
      | [] => [[c]]
      | g :: gs => (c :: g) :: gs

/-- Python's `"/".join(pieces)`. -/
def joinSlash : List Str → Str
  | [] => []
  | [x] => x
  | x :: y :: t => x ++ '/' :: joinSlash (y :: t)

/-- One step of `posixpath.normpath`'s component loop: skip empty and `.`
components, append ordinary components, and let `..` pop the previous
component unless there is nothing to pop (or the previous component is
itself an unpopped `..`). -/
def normStep (initialSlashes : Nat) (acc : List Str) (comp : Str) : List Str :=
  if comp = [] ∨ comp = ['.'] then acc
  else if comp ≠ ['.', '.'] ∨ (initialSlashes = 0 ∧ acc = []) ∨
          acc.getLast? = some ['.', '.'] then acc ++ [comp]
  else acc.dropLast

/-- The number of leading separators `posixpath.normpath` preserves: one or
two leading slashes are kept, three or more collapse to one. -/
def initialSlashCount (path : Str) : Nat :=
  if (['/', '/']).isPrefixOf path ∧ ¬ (['/', '/', '/']).isPrefixOf path then 2
  else if (['/']).isPrefixOf path then 1
  else 0

/-- CPython's `posixpath.normpath`: collapse redundant separators and
`.`/`..` components.  One or two leading slashes are preserved, three or
more collapse to one; the empty path normalizes to `.`. -/
def pyNormpath (path : Str) : Str :=
  if path = [] then ['.']
  else
    let initialSlashes := initialSlashCount path
    let comps := pySplit '/' path
    let newComps := comps.foldl (normStep initialSlashes) []
    let joined := List.replicate initialSlashes '/' ++ joinSlash newComps
    if joined = [] then ['.'] else joined

/-- Does the string contain two consecutive separators?  (`normpath` output
never does, which is what keeps a normalized path from ever carrying an
`s3://`-style scheme.) -/
def hasDoubleSlash : Str → Bool
  | [] => false
  | [_] => false
  | a :: b :: t => (a == '/' && b == '/') || hasDoubleSlash (b :: t)

/-- CPython's `posixpath.expanduser`, with the user database abstracted
away: a path starting with the bare shorthand `~` (alone or followed by a
separator) is rebased onto `home`; a `~user` form is returned unchanged
(the behaviour for an unknown user). -/
def pyExpanduser (home : Str) (p : Str) : Str :=
  if p = ['~'] then home
  else if (['~', '/']).isPrefixOf p then home ++ p.drop 1
  else p

/-- Two-argument `os.path.join`: an absolute second argument wins, a first
argument that is empty or ends in a separator is concatenated directly, and
otherwise a separator is inserted. -/
def pjoin (a b : Str) : Str :=
  if b.head? = some '/' then b
  else if a = [] ∨ a.getLast? = some '/' then a ++ b
  else a ++ '/' :: b

/-- `os.path.basename`: everything after the last separator. -/
def basenameS (p : Str) : Str :=
  (p.reverse.takeWhile (fun c => c ≠ '/')).reverse

/-! ## `dna_util.io._s3` path helpers -/

/-- `_s3.is_s3path`: a path is an s3 path iff it starts with `s3://` or
`s3n://` (the source first coerces the argument to `str`; the embedding
works on strings throughout). -/
def is_s3path (path : Str) : Bool :=
  ("s3://".data).isPrefixOf path || ("s3n://".data).isPrefixOf path

/-- `_s3._norm_s3_path`: remove every occurrence of `s3://` and `s3n://`
and normalize the remainder with `os.path.normpath`. -/
def _norm_s3_path (path : Str) : Str :=
  pyNormpath (replaceAll ("s3n://".data) [] (replaceAll ("s3://".data) [] path))


/-! ## Local filesystem model and `dna_util.io._local` -/

/-- Flat model of the local filesystem: the set of directory paths and the
set of regular-file paths, all stored as fully resolved path strings with
no trailing separator. -/
structure LocalFS where
  dirs : List Str
  files : List Str
deriving DecidableEq

/-- `_local._norm_path`: `os.path.expanduser(os.path.normpath(path))`.  The
home directory consulted by `expanduser` is passed explicitly. -/
def _norm_path (home : Str) (path : Str) : Str :=
  pyExpanduser home (pyNormpath path)

/-- Model of `os.path.isdir` on an arbitrary path string: the operating
system resolves `.`/`..`/redundant separators itself, modelled by
`pyNormpath` (no `~` expansion, which the OS does not perform). -/
def osIsdir (lfs : LocalFS) (p : Str) : Bool :=
  lfs.dirs.contains (pyNormpath p)

/-- The name of `entry` relative to `root` when `entry` is an immediate
child of `root`, and `none` otherwise. -/
def childNameOf (root entry : Str) : Option Str :=
  if (root ++ ['/']).isPrefixOf entry then
    if entry.drop (root.length + 1) ≠ [] ∧
        (entry.drop (root.length + 1)).contains '/' = false then
      some (entry.drop (root.length + 1))
    else none
  else none

/-- `d` lies strictly under `root`. -/
def isUnderS (root d : Str) : Bool :=
  (root ++ ['/']).isPrefixOf d

/-- Model of `os.walk(top)` (top-down): one `(root, dirnames, filenames)`
triple for `top` and for every directory below it, and no triples at all
when `top` is not a directory (CPython's `os.walk` silently yields nothing
for a missing path or a regular file).  The operating system reports
entries in no guaranteed order; the model fixes the storage order. -/
def pyWalk (lfs : LocalFS) (top : Str) : List (Str × List Str × List Str) :=
  if lfs.dirs.contains top then
    (top :: lfs.dirs.filter (fun d => isUnderS top d)).map (fun r =>
      (r, lfs.dirs.filterMap (childNameOf r), lfs.files.filterMap (childNameOf r)))
  else []

/-- Model of `os.scandir(top)`: the immediate children as `(name, isDir)`
pairs; `os.scandir` raises on a path that is not a directory. -/
def pyScandir (lfs : LocalFS) (top : Str) : List (Str × Bool) :=
  (lfs.dirs.filterMap (childNameOf top)).map (fun n => (n, true)) ++
    (lfs.files.filterMap (childNameOf top)).map (fun n => (n, false))

/-- `_local.already_exists`: normalize, then `os.path.exists`. -/
def local_already_exists (lfs : LocalFS) (home : Str) (path : Str) : Bool :=
  let p := _norm_path home path
  lfs.dirs.contains p || lfs.files.contains p

/-- `_local.ls`: recursive listings walk the tree and return file paths
(joined with their root, and with the leading `len(path)+1` characters cut
off when `full_path` is false); non-recursive listings scan the immediate
children, marking directories with a trailing separator.  `os.scandir`
raises an `OSError` on a path that is not a directory. -/
def local_ls (lfs : LocalFS) (home : Str) (path : Str)
    (full_path recursive : Bool) : Except PyErr (List Str) :=
  let p := _norm_path home path
  if recursive then
    .ok ((pyWalk lfs p).flatMap (fun rdf =>
      rdf.2.2.map (fun f =>
        if full_path then pjoin rdf.1 f else (pjoin rdf.1 f).drop (p.length + 1))))
  else
    if lfs.dirs.contains p = false then .error .osError
    else
      .ok ((pyScandir lfs p).map (fun e =>
        let name := if full_path then pjoin p e.1 else e.1
        if e.2 then name ++ ['/'] else name))

/-- Model of `shutil.rmtree`: remove the directory and everything under
it. -/
def rmtreeFS (lfs : LocalFS) (p : Str) : LocalFS :=
  { dirs := lfs.dirs.filter (fun d => d ≠ p ∧ isUnderS p d = false),
    files := lfs.files.filter (fun x => isUnderS p x = false) }

/-- `_local.rm`: count the files a recursive listing reports, stop there on
a dry run; otherwise delete a directory with `shutil.rmtree` (failures
propagate) or a single path with `os.remove`, catching and logging
`OSError` only.  The outcome of the underlying deletion primitives is
supplied by the `removeErr`/`rmtreeErr` oracles; the returned `Option Nat`
is the count printed by a dry run. -/
def local_rm (lfs : LocalFS) (home : Str) (path : Str) (dry_run : Bool)
    (removeErr : Option PyErr) (rmtreeErr : Option PyErr) :
    Except PyErr (LocalFS × Option Nat) :=
  let p := _norm_path home path
  match local_ls lfs home p false true with
  | .error e => .error e
  | .ok files =>
    let num_files := files.length
    if dry_run then .ok (lfs, some num_files)
    else if lfs.dirs.contains p then
      match rmtreeErr with
      | some e => .error e
      | none => .ok (rmtreeFS lfs p, none)
    else
      match removeErr with
      | some PyErr.osError => .ok (lfs, none)
      | some e => .error e
      | none => .ok ({ lfs with files := lfs.files.erase p }, none)

/-- Model of `shutil.copytree src dst`: fails if `dst` already exists,
otherwise recreates the whole `src` subtree under `dst`. -/
def copytreeFS (lfs : LocalFS) (f t : Str) : Except PyErr LocalFS :=
  if lfs.dirs.contains t || lfs.files.contains t then .error .fileExistsError
  else
    .ok { dirs := (lfs.dirs ++ [t]) ++
            (lfs.dirs.filter (fun d => isUnderS f d)).map (fun d => t ++ d.drop f.length),
          files := lfs.files ++
            (lfs.files.filter (fun x => isUnderS f x)).map (fun x => t ++ x.drop f.length) }

/-- Insert a string into a list unless it is already present (used to model
writes that overwrite an existing file or key in place). -/
def insertStr (l : List Str) (s : Str) : List Str :=
  if l.contains s then l else l ++ [s]

/-- Model of `shutil.copy src dst`: fails if `src` does not exist; when
`dst` is a directory the file is copied into it under `src`'s basename. -/
def shutilCopyFS (lfs : LocalFS) (f t : Str) : Except PyErr LocalFS :=
  if lfs.files.contains f = false then .error .osError
  else
    let t2 := if lfs.dirs.contains t then pjoin t (basenameS f) else t
    .ok { lfs with files := insertStr lfs.files t2 }

/-- `_local.cp`: normalize both ends; a directory source optionally gains
its basename on the destination, is rejected when `overwrite` is false and
the destination exists, has any existing destination directory cleared, and
is then copied with `shutil.copytree`; a file source is rejected the same
way and copied with `shutil.copy`. -/
def local_cp (lfs : LocalFS) (home : Str) (from_path to_path : Str)
    (overwrite include_folder_name : Bool) : Except PyErr LocalFS :=
  let f := _norm_path home from_path
  let t := _norm_path home to_path
  if osIsdir lfs f then
    let t := if include_folder_name then pjoin t (basenameS f) else t
    if !overwrite && local_already_exists lfs home t then .error .valueError
    else
      let lfs1 := if osIsdir lfs t then rmtreeFS lfs (pyNormpath t) else lfs
      copytreeFS lfs1 f t
  else
    if !overwrite && local_already_exists lfs home t then .error .valueError
    else shutilCopyFS lfs f t

/-! ## Object-store model and `dna_util.io._s3` -/

/-- `s3fs` strips a leading scheme from the paths it is given (and nothing
more); keys are `bucket/key...` strings. -/
def stripScheme (p : Str) : Str :=
  if ("s3://".data).isPrefixOf p then p.drop 5
  else if ("s3n://".data).isPrefixOf p then p.drop 6
  else p

/-- Model of `s3fs.S3FileSystem.exists`: an exact key, or a prefix with at
least one object under it. -/
def s3fsExists (keys : List Str) (p : Str) : Bool :=
  let k := stripScheme p
  keys.contains k || keys.any (fun q => isUnderS k q)

/-- Model of the flat `s3fs.S3FileSystem.walk`: every object key strictly
under the given prefix.  A key that names a single object (not a prefix)
has nothing under it, so `walk` returns the empty list for it — the
transfer helpers rely on exactly this to detect the single-file case. -/
def s3fsWalk (keys : List Str) (p : Str) : List Str :=
  keys.filter (fun q => isUnderS (stripScheme p) q)

/-- Deduplicate while keeping first occurrences (pseudo-directories appear
once per listing even when many objects share them). -/
def dedupKeep (l : List (Str × Bool)) : List (Str × Bool) :=
  l.foldl (fun acc e => if acc.contains e then acc else acc ++ [e]) []

/-- Model of `s3fs.S3FileSystem.ls(path, detail=True)`: the exact key
itself when it names an object, plus one entry per immediate child, where a
child with further components below it is a pseudo-directory (the `Bool` is
the `StorageClass == "DIRECTORY"` flag).  Listing a key/prefix with nothing
at or under it raises the client's not-found error, which this repository
documents (`_s3.ls` docstring) and tests (`test_ls_non_existent_path`) as a
`ValueError`. -/
def s3fsLsDetail (keys : List Str) (p : Str) : Except PyErr (List (Str × Bool)) :=
  let k := stripScheme p
  let selfFile : List (Str × Bool) :=
    if keys.contains k then [(k, false)] else []
  let children := keys.filterMap (fun q =>
    if isUnderS k q then
      let rest := q.drop (k.length + 1)
      let seg := rest.takeWhile (fun c => c ≠ '/')
      if seg = [] then none
      else some (k ++ '/' :: seg, rest.contains '/')
    else none)
  if selfFile ++ dedupKeep children = [] then .error .valueError
  else .ok (selfFile ++ dedupKeep children)

/-- Model of `s3fs.S3FileSystem.ls(path)` without detail: just the keys,
raising the same not-found error as the detailed form. -/
def s3fsLs (keys : List Str) (p : Str) : Except PyErr (List Str) :=
  match s3fsLsDetail keys p with
  | .error e => .error e
  | .ok es => .ok (es.map Prod.fst)

/-- `_s3.already_exists`: delegate to the client's `exists`. -/
def s3_already_exists (keys : List Str) (path : Str) : Bool :=
  s3fsExists keys path

/-- `_s3.is_dir`: reject non-s3 paths with a `ValueError`; otherwise list
the normalized path with the client (whose not-found error propagates — on
a nonexistent key/prefix `is_dir` raises instead of returning): the path is
a file exactly when the listing yields a single entry equal to the
normalized path itself, and a directory when it yields anything else. -/
def is_dir (keys : List Str) (path : Str) : Except PyErr Bool :=
  if is_s3path path = false then .error .valueError
  else
    match s3fsLs keys (_norm_s3_path path) with
    | .error e => .error e
    | .ok lst =>
      if lst = [_norm_s3_path path] then .ok false else .ok true

/-- `_s3.ls`: reject non-s3 paths; a directory is walked (recursive) or
listed with pseudo-directories marked by a trailing separator
(non-recursive); a single file lists as its own normalized key, with the
variable `path` reassigned to its parent for the relative-name
computation.  Finally the names are made absolute (joined under `s3://`) or
relative (the normalized `path` plus a separator is removed with
`str.replace`), and the result is returned sorted. -/
def s3_ls (keys : List Str) (path : Str) (full_path recursive : Bool) :
    Except PyErr (List Str) :=
  if is_s3path path = false then .error .valueError
  else
    match is_dir keys path with
    | .error e => .error e
    | .ok isd =>
      match (if isd then
               if recursive then .ok (s3fsWalk keys path, path)
               else
                 match s3fsLsDetail keys path with
                 | .error e => .error e
                 | .ok es =>
                   .ok (es.map (fun e => if e.2 then e.1 ++ ['/'] else e.1), path)
             else
               .ok ([_norm_s3_path path], joinSlash ((pySplit '/' path).dropLast)) :
             Except PyErr (List Str × Str)) with
      | .error e => .error e
      | .ok fp =>
        let files :=
          if full_path then fp.1.map (fun f => pjoin ("s3://".data) f)
          else fp.1.map (fun f => replaceAll (_norm_s3_path fp.2 ++ ['/']) [] f)
        .ok (pySorted files)

/-- Model of `s3fs.S3FileSystem.rm(path, recursive=True)`: drop the key and
everything under it. -/
def s3fsRmRec (keys : List Str) (p : Str) : List Str :=
  let k := stripScheme p
  keys.filter (fun q => q ≠ k ∧ isUnderS k q = false)

/-- `_s3.rm`: reject non-s3 paths; count what a recursive listing reports
and stop there on a dry run; otherwise remove a directory recursively or
the single key. -/
def s3_rm (keys : List Str) (path : Str) (dry_run : Bool) :
    Except PyErr (List Str × Option Nat) :=
  if is_s3path path = false then .error .valueError
  else
    match s3_ls keys path false true with
    | .error e => .error e
    | .ok files =>
      let num_files := files.length
      if dry_run then .ok (keys, some num_files)
      else
        match is_dir keys path with
        | .error e => .error e
        | .ok true => .ok (s3fsRmRec keys path, none)
        | .ok false => .ok (keys.erase (stripScheme path), none)

/-- `_s3._s3_to_s3_cp`: normalize both endpoints and walk the source.  A
non-empty walk is the directory case: build the destination key for every
file, refuse (before submitting any copy) as soon as one planned
destination already exists when `overwrite` is false, then fan out one
server-side copy per file.  An empty walk is the single-file case: the
`overwrite` pre-check there raises through an f-string that names the
undefined variable `to_file`, so Python raises `UnboundLocalError` (a
`NameError`) instead of the intended `ValueError`; the copy itself proceeds
when the destination does not exist. -/
def _s3_to_s3_cp (keys : List Str) (from_path to_path : Str)
    (overwrite : Bool) : Except PyErr (List Str) :=
  let fp := _norm_s3_path from_path
  let tp := _norm_s3_path to_path
  let files := s3fsWalk keys fp
  if files ≠ [] then
    let to_files := files.map (fun f => pjoin tp (replaceAll (fp ++ ['/']) [] f))
    if !overwrite && to_files.any (fun t => s3_already_exists keys t) then
      .error .valueError
    else .ok (to_files.foldl (fun acc t => insertStr acc (stripScheme t)) keys)
  else
    if !overwrite && s3_already_exists keys tp then
      .error .nameError
    else .ok (insertStr keys (stripScheme tp))

/-- Directory-component paths of `p` from its first component down to `p`
itself (the directories `os.makedirs(p)` creates). -/
def dirAncestorPaths (p : Str) : List Str :=
  let comps := pySplit '/' p
  (List.range comps.length).map (fun i => joinSlash (comps.take (i + 1)))

/-- Model of `os.makedirs`: create the target directory and every missing
intermediate directory; with the default `exist_ok=False` it raises
`FileExistsError` when the target itself still exists (as it can after a
swallowed best-effort `os.remove` failure). -/
def makedirsFS (lfs : LocalFS) (p : Str) : Except PyErr LocalFS :=
  if lfs.dirs.contains p || lfs.files.contains p then .error .fileExistsError
  else .ok { lfs with dirs := (dirAncestorPaths p).foldl insertStr lfs.dirs }

/-- `_s3._local_create_subfolders`: the recursive listing-driven discovery
creates one local directory under `tp` for every pseudo-directory under
`fp`; the model computes those pseudo-directories directly as the proper
component-paths of each walked key's relative path. -/
def _local_create_subfolders (keys : List Str) (lfs : LocalFS) (fp tp : Str) :
    LocalFS :=
  let rels := (s3fsWalk keys fp).map (fun k => replaceAll (fp ++ ['/']) [] k)
  let subdirs := rels.flatMap (fun r =>
    let comps := pySplit '/' r
    (List.range (comps.length - 1)).map (fun i => joinSlash (comps.take (i + 1))))
  { lfs with dirs := (subdirs.map (fun s => pjoin tp s)).foldl insertStr lfs.dirs }

/-- `_s3._s3_to_local_cp`: normalize both endpoints and walk the source.
Directory case (non-empty walk): refuse when `overwrite` is false and the
destination exists; otherwise clear any existing destination with
`local.rm`, create the root and every implied subdirectory, and fan out one
download per file.  Single-file case (empty walk): the `overwrite`
pre-check calls `local.already_exists(to_path, fs)` — two positional
arguments for a one-parameter function — so Python raises `TypeError`
whenever `overwrite` is false, before any existence information is
consulted; with `overwrite` true the single download proceeds. -/
def _s3_to_local_cp (keys : List Str) (lfs : LocalFS) (home : Str)
    (from_path to_path : Str) (overwrite : Bool)
    (removeErr rmtreeErr : Option PyErr) : Except PyErr (List Str × LocalFS) :=
  let fp := _norm_s3_path from_path
  let tp := _norm_path home to_path
  let files := s3fsWalk keys fp
  if files ≠ [] then
    if !overwrite && local_already_exists lfs home tp then .error .valueError
    else
      match (if local_already_exists lfs home tp then
               local_rm lfs home tp false removeErr rmtreeErr
             else .ok (lfs, none)) with
      | .error e => .error e
      | .ok (lfs1, _) =>
        match makedirsFS lfs1 tp with
        | .error e => .error e
        | .ok lfs2 =>
          let lfs3 := _local_create_subfolders keys lfs2 fp tp
          let to_files := files.map (fun f => pjoin tp (replaceAll (fp ++ ['/']) [] f))
          .ok (keys, { lfs3 with files := to_files.foldl insertStr lfs3.files })
  else
    if !overwrite then .error .typeError
    else
      if keys.contains fp = false then .error .osError
      else .ok (keys, { lfs with files := insertStr lfs.files tp })

/-- `_s3._local_to_s3_cp`: normalize the local source; a single top-level
existence pre-check guards the destination when `overwrite` is false (the
per-file destinations are not checked in this direction); then a directory
source fans out one upload per file of its recursive listing, and a file
source uploads directly. -/
def _local_to_s3_cp (keys : List Str) (lfs : LocalFS) (home : Str)
    (from_path to_path : Str) (overwrite : Bool) :
    Except PyErr (List Str × LocalFS) :=
  let fp := _norm_path home from_path
  if !overwrite && s3_already_exists keys to_path then .error .valueError
  else if osIsdir lfs fp then
    match local_ls lfs home fp true true, local_ls lfs home fp false true with
    | .ok _files, .ok rels =>
      let to_files := rels.map (fun r => pjoin to_path r)
      .ok (to_files.foldl (fun acc t => insertStr acc (stripScheme t)) keys, lfs)
    | .error e, _ => .error e
    | _, .error e => .error e
  else
    if lfs.files.contains fp = false then .error .osError
    else .ok (insertStr keys (stripScheme to_path), lfs)

/-- `_s3.cp`: dispatch on the direction.  An s3 source must exist and (for
a directory, when requested) contributes its basename to the destination;
then the transfer is remote→remote or remote→local.  A local source must
exist, contributes its basename the same way, and is uploaded. -/
def s3_cp (keys : List Str) (lfs : LocalFS) (home : Str)
    (from_path to_path : Str) (overwrite include_folder_name : Bool)
    (removeErr rmtreeErr : Option PyErr) : Except PyErr (List Str × LocalFS) :=
  if is_s3path from_path then
    if s3_already_exists keys from_path = false then .error .valueError
    else
      match (if include_folder_name then is_dir keys from_path else .ok false) with
      | .error e => .error e
      | .ok isd =>
        let to_path2 :=
          if include_folder_name && isd then
            pjoin to_path (basenameS (pyNormpath from_path))
          else to_path
        if is_s3path to_path2 then
          match _s3_to_s3_cp keys from_path to_path2 overwrite with
          | .error e => .error e
          | .ok ks => .ok (ks, lfs)
        else
          _s3_to_local_cp keys lfs home from_path to_path2 overwrite removeErr rmtreeErr
  else
    if local_already_exists lfs home from_path = false then .error .valueError
    else
      let to_path2 :=
        if include_folder_name && osIsdir lfs from_path then
          pjoin to_path (basenameS (_norm_path home from_path))
        else to_path
      _local_to_s3_cp keys lfs home from_path to_path2 overwrite

/-! ## Dispatcher: `dna_util.io._io` -/

/-- The combined state the dispatcher operates on: the object store's keys,
the local filesystem, and the home directory. -/
structure World where
  s3keys : List Str
  lfs : LocalFS
  home : Str
deriving DecidableEq

/-- `_io.cp`: any s3 endpoint routes to `_s3.cp`, otherwise `_local.cp`. -/
def io_cp (w : World) (from_path to_path : Str)
    (overwrite include_folder_name : Bool)
    (removeErr rmtreeErr : Option PyErr) : Except PyErr World :=
  if is_s3path from_path || is_s3path to_path then
    match s3_cp w.s3keys w.lfs w.home from_path to_path overwrite
        include_folder_name removeErr rmtreeErr with
    | .error e => .error e
    | .ok (ks, lfs2) => .ok { w with s3keys := ks, lfs := lfs2 }
  else
    match local_cp w.lfs w.home from_path to_path overwrite include_folder_name with
    | .error e => .error e
    | .ok lfs2 => .ok { w with lfs := lfs2 }

/-- `_io.rm`: route by path classification. -/
def io_rm (w : World) (path : Str) (dry_run : Bool)
    (removeErr rmtreeErr : Option PyErr) : Except PyErr (World × Option Nat) :=
  if is_s3path path then
    match s3_rm w.s3keys path dry_run with
    | .error e => .error e
    | .ok (ks, n) => .ok ({ w with s3keys := ks }, n)
  else
    match local_rm w.lfs w.home path dry_run removeErr rmtreeErr with
    | .error e => .error e
    | .ok (lfs2, n) => .ok ({ w with lfs := lfs2 }, n)

/-- `_io.already_exists`: route by path classification. -/
def io_already_exists (w : World) (path : Str) : Bool :=
  if is_s3path path then s3fsExists w.s3keys path
  else local_already_exists w.lfs w.home path

/-- `_io._file_type_helper`: the file type inferred from the substring
after the last `.` of the path (for a dotless path, `str.split` makes that
the whole path); an unrecognized segment raises a `ValueError`. -/
def _file_type_helper (path : Str) : Except PyErr Str :=
  let extension := (pySplit '.' path).getLastD []
  if extension = "pkl".data then .ok ("pickle".data)
  else if extension = "csv".data then .ok ("csv".data)
  else if extension = "json".data then .ok ("json".data)
  else if extension = "parquet".data then .ok ("parquet".data)
  else if extension = "parq".data then .ok ("parquet".data)
  else if extension = "txt".data then .ok ("raw".data)
  else .error .valueError

/-- The content-touching side effects `load_object`/`save_object` can
perform, recorded as a trace (existence checks are reads of metadata only
and are not traced). -/
inductive Effect where
  | openS3 (p : Str)
  | openLocal (p : Str)
  | writeS3 (p : Str)
  | writeLocal (p : Str)
  | loadParquet (p : Str)
  | saveParquet (p : Str)
deriving DecidableEq

/-- The in-memory Python values `save_object` distinguishes. -/
inductive PyObj where
  | dataframe
  | byteData (s : Str)
  | textData (s : Str)
  | other
deriving DecidableEq

/-- `_io.load_object`, abstracted to its control flow: resolve the format
(inferring it from the extension when no hint is given), hand `parquet`
off to the parquet adapter, otherwise open the s3 or local file and
deserialize per format (an explicitly passed unsupported format is
rejected only after the open).  The returned trace records every
content-touching effect that happened before the result or error. -/
def load_object (w : World) (path : Str) (file_type : Option Str) :
    List Effect × Except PyErr Str :=
  match (match file_type with
         | none => _file_type_helper path
         | some t => .ok t) with
  | .error e => ([], .error e)
  | .ok t =>
    if t = "parquet".data then ([.loadParquet path], .ok t)
    else if is_s3path path then
      if s3fsExists w.s3keys path = false then ([], .error .valueError)
      else
        ([.openS3 path],
         if t = "pickle".data || t = "raw".data || t = "csv".data ||
            t = "json".data then .ok t
         else .error .valueError)
    else
      let p := _norm_path w.home path
      if w.lfs.files.contains p = false then ([], .error .osError)
      else
        ([.openLocal p],
         if t = "pickle".data || t = "raw".data || t = "csv".data ||
            t = "json".data then .ok t
         else .error .valueError)

/-- `_io.save_object`, abstracted to its control flow: an `overwrite`
pre-check, format resolution, per-format serialization (`csv`/`parquet`
demand a dataframe; an unsupported resolved format raises `ValueError`
before anything is written), then the write to the s3 or local backend
(the s3 writer repeats the overwrite check). -/
def save_object (w : World) (obj : PyObj) (path : Str)
    (file_type : Option Str) (overwrite : Bool) :
    List Effect × Except PyErr Unit :=
  if !overwrite && io_already_exists w path then ([], .error .valueError)
  else
    match (match file_type with
           | none => _file_type_helper path
           | some t => .ok t) with
    | .error e => ([], .error e)
    | .ok t =>
      if t = "csv".data && !(obj matches PyObj.dataframe) then
        ([], .error .typeError)
      else if t = "parquet".data then
        if obj matches PyObj.dataframe then ([.saveParquet path], .ok ())
        else ([], .error .typeError)
      else if t = "pickle".data || t = "raw".data || t = "csv".data ||
              t = "json".data then
        if is_s3path path then
          if !overwrite && s3fsExists w.s3keys path then ([], .error .valueError)
          else ([.writeS3 path], .ok ())
        else ([.writeLocal (_norm_path w.home path)], .ok ())
      else ([], .error .valueError)

/-! ## General lemmas about the string primitives -/

theorem ex_of_isPrefixOf : ∀ (a s : Str), a.isPrefixOf s = true → ∃ t, s = a ++ t
  | [], s, _ => ⟨s, rfl⟩
  | _ :: _, [], h => by simp [List.isPrefixOf] at h
  | a :: as, b :: bs, h => by
    simp only [List.isPrefixOf, Bool.and_eq_true, beq_iff_eq] at h
    obtain ⟨rfl, h2⟩ := h
    obtain ⟨t, rfl⟩ := ex_of_isPrefixOf as bs h2
    exact ⟨t, rfl⟩

theorem isPrefixOf_append : ∀ (a t : Str), a.isPrefixOf (a ++ t) = true
  | [], t => by cases t <;> rfl
  | c :: cs, t => by
    simp only [List.cons_append, List.isPrefixOf, beq_self_eq_true,
      Bool.true_and]
    exact isPrefixOf_append cs t

theorem hds_s3_scheme (t : Str) :
    hasDoubleSlash ('s' :: '3' :: ':' :: '/' :: '/' :: t) = true := rfl

theorem hds_s3n_scheme (t : Str) :
    hasDoubleSlash ('s' :: '3' :: 'n' :: ':' :: '/' :: '/' :: t) = true := rfl

theorem noslash_hds : ∀ s : Str, '/' ∉ s → hasDoubleSlash s = false
  | [], _ => rfl
  | [_], _ => rfl
  | a :: b :: t, h => by
    simp only [List.mem_cons, not_or] at h
    obtain ⟨h1, h2, h3⟩ := h
    have hrec := noslash_hds (b :: t) (by
      simp only [List.mem_cons, not_or]
      exact ⟨h2, h3⟩)
    simp [hasDoubleSlash, hrec, Ne.symm h1]

theorem hds_slash_cons (R : Str) (hR : hasDoubleSlash R = false)
    (hh : R.head? ≠ some '/') : hasDoubleSlash ('/' :: R) = false := by
  cases R with
  | nil => rfl
  | cons r t =>
    have hr : r ≠ '/' := by
      intro h
      exact hh (by simp [h])
    simpa [hasDoubleSlash, hr] using hR

theorem hds_chunk : ∀ (x R : Str), '/' ∉ x → hasDoubleSlash R = false →
    R.head? ≠ some '/' → hasDoubleSlash (x ++ '/' :: R) = false := by
  intro x
  induction x with
  | nil =>
    intro R _ hR hh
    exact hds_slash_cons R hR hh
  | cons c cs ih =>
    intro R hx hR hh
    have hc : c ≠ '/' := by
      intro h
      exact hx (h ▸ List.mem_cons_self c cs)
    have hcs : '/' ∉ cs := fun h => hx (List.mem_cons_of_mem c h)
    cases cs with
    | nil =>
      simp only [List.nil_append, List.cons_append]
      simp [hasDoubleSlash, hc, hds_slash_cons R hR hh]
    | cons d t =>
      have := ih R hcs hR hh
      simp only [List.cons_append] at this ⊢
      simp [hasDoubleSlash, hc, this]

theorem joinSlash_no_ds : ∀ l : List Str, (∀ x ∈ l, x ≠ [] ∧ '/' ∉ x) →
    hasDoubleSlash (joinSlash l) = false ∧ (joinSlash l).head? ≠ some '/' := by
  intro l
  induction l using joinSlash.induct with
  | case1 =>
    intro _
    exact ⟨rfl, by simp [joinSlash]⟩
  | case2 x =>
    intro h
    obtain ⟨hne, hns⟩ := h x (by simp)
    refine ⟨noslash_hds x hns, ?_⟩
    cases x with
    | nil => simp [joinSlash]
    | cons a t =>
      have ha : a ≠ '/' := fun hh => hns (hh ▸ List.mem_cons_self a t)
      simp [joinSlash, ha]
  | case3 x y t ih =>
    intro h
    have hx := h x (by simp)
    have ih2 := ih (fun z hz => h z (List.mem_cons_of_mem x hz))
    constructor
    · exact hds_chunk x _ hx.2 ih2.1 ih2.2
    · cases x with
      | nil => exact absurd rfl hx.1
      | cons a s =>
        have ha : a ≠ '/' := fun hh => hx.2 (hh ▸ List.mem_cons_self a s)
        simp [joinSlash, ha]

theorem pySplit_ne_nil : ∀ (sep : Char) (s : Str), pySplit sep s ≠ [] := by
  intro sep s
  cases s with
  | nil => simp [pySplit]
  | cons c rest =>
    simp only [pySplit]
    split
    · simp
    · split <;> simp

theorem pySplit_no_sep : ∀ (s x : Str), x ∈ pySplit '/' s → '/' ∉ x := by
  intro s
  induction s with
  | nil =>
    intro x hx
    simp only [pySplit, List.mem_singleton] at hx
    simp [hx]
  | cons c rest ih =>
    intro x hx
    simp only [pySplit] at hx
    split at hx
    · rcases List.mem_cons.mp hx with rfl | h
      · simp
      · exact ih x h
    · next hc =>
      rcases hsp : pySplit '/' rest with _ | ⟨g, gs⟩
      · exact absurd hsp (pySplit_ne_nil '/' rest)
      · rw [hsp] at hx
        rcases List.mem_cons.mp hx with rfl | h
        · intro hmem
          rcases List.mem_cons.mp hmem with h1 | h1
          · exact hc h1.symm
          · exact ih g (hsp ▸ List.mem_cons_self g gs) h1
        · exact ih x (hsp ▸ List.mem_cons_of_mem g h)

theorem foldl_normStep_good (k : Nat) :
    ∀ (comps acc : List Str), (∀ c ∈ comps, '/' ∉ c) →
      (∀ x ∈ acc, x ≠ [] ∧ '/' ∉ x) →
      ∀ x ∈ comps.foldl (normStep k) acc, x ≠ [] ∧ '/' ∉ x := by
  intro comps
  induction comps with
  | nil =>
    intro acc _ hacc
    simpa using hacc
  | cons c rest ih =>
    intro acc hc hacc
    simp only [List.foldl_cons]
    refine ih _ (fun z hz => hc z (List.mem_cons_of_mem c hz)) ?_
    intro x hx
    unfold normStep at hx
    split at hx
    · exact hacc x hx
    · split at hx
      · rcases List.mem_append.mp hx with h | h
        · exact hacc x h
        · next hne _ =>
          simp only [List.mem_singleton] at h
          subst h
          refine ⟨?_, hc x (List.mem_cons_self x rest)⟩
          intro hxnil
          exact hne (Or.inl hxnil)
      · exact hacc x (List.dropLast_subset acc hx)

theorem is_s3path_slash_cons (s : Str) : is_s3path ('/' :: s) = false := rfl

theorem initialSlashCount_cases (p : Str) :
    initialSlashCount p = 0 ∨ initialSlashCount p = 1 ∨ initialSlashCount p = 2 := by
  unfold initialSlashCount
  split
  · exact Or.inr (Or.inr rfl)
  · split
    · exact Or.inr (Or.inl rfl)
    · exact Or.inl rfl

theorem normpath_not_s3 (p : Str) : is_s3path (pyNormpath p) = false := by
  simp only [pyNormpath]
  split
  · rfl
  · have hgood : ∀ x ∈ (pySplit '/' p).foldl (normStep (initialSlashCount p)) [],
        x ≠ [] ∧ '/' ∉ x :=
      foldl_normStep_good _ (pySplit '/' p) []
        (fun c hc => pySplit_no_sep p c hc) (by simp)
    rcases initialSlashCount_cases p with hk | hk | hk <;> rw [hk] at hgood ⊢
    · have hJ := joinSlash_no_ds _ hgood
      simp only [List.replicate, List.nil_append]
      split
      · rfl
      · rcases hb : is_s3path (joinSlash ((pySplit '/' p).foldl (normStep 0) [])) with _ | _
        · rfl
        · exfalso
          simp only [is_s3path, Bool.or_eq_true] at hb
          rcases hb with h | h
          · obtain ⟨t, ht⟩ := ex_of_isPrefixOf _ _ h
            have h2 : hasDoubleSlash ("s3://".data ++ t) = true := hds_s3_scheme t
            rw [ht] at hJ
            rw [hJ.1] at h2
            exact Bool.false_ne_true h2
          · obtain ⟨t, ht⟩ := ex_of_isPrefixOf _ _ h
            have h2 : hasDoubleSlash ("s3n://".data ++ t) = true := hds_s3n_scheme t
            rw [ht] at hJ
            rw [hJ.1] at h2
            exact Bool.false_ne_true h2
    · simp only [List.replicate, List.cons_append]
      split
      · rfl
      · exact is_s3path_slash_cons _
    · simp only [List.replicate, List.cons_append]
      split
      · rfl
      · exact is_s3path_slash_cons _

theorem not_mem_of_contains_false {a : Char} {l : Str}
    (h : l.contains a = false) : a ∉ l := by
  intro hm
  have h2 : l.contains a = true := by simpa using hm
  rw [h2] at h
  exact Bool.noConfusion h

theorem drop_after (p t : Str) : (p ++ '/' :: t).drop (p.length + 1) = t := by
  have h := List.drop_left (p ++ ['/']) t
  rw [List.append_assoc] at h
  simp only [List.length_append, List.length_singleton, List.singleton_append] at h
  exact h

theorem prefixOf_slash_cons (p t : Str) :
    (p ++ ['/']).isPrefixOf (p ++ '/' :: t) = true := by
  have h := isPrefixOf_append (p ++ ['/']) t
  rwa [List.append_assoc] at h

theorem pjoin_eq_append {r n : Str} (hr : r ≠ []) (hrl : r.getLast? ≠ some '/')
    (hn : n.head? ≠ some '/') : pjoin r n = r ++ '/' :: n := by
  unfold pjoin
  rw [if_neg hn, if_neg (by push_neg; exact ⟨hr, hrl⟩)]

theorem pjoin_s3root (k : Str) (h : k.head? ≠ some '/') :
    pjoin ("s3://".data) k = "s3://".data ++ k := by
  unfold pjoin
  rw [if_neg h, if_pos (Or.inr (by decide))]

theorem childNameOf_some {root entry n : Str} (h : childNameOf root entry = some n) :
    n ≠ [] ∧ '/' ∉ n ∧ entry = root ++ '/' :: n := by
  unfold childNameOf at h
  split at h
  · next hpre =>
    split at h
    · next hcond =>
      injection h with h2
      subst h2
      obtain ⟨t, ht⟩ := ex_of_isPrefixOf _ _ hpre
      have hdrop : entry.drop (root.length + 1) = t := by
        rw [ht, List.append_assoc]
        exact drop_after root t
      refine ⟨hcond.1, ?_, ?_⟩
      · exact not_mem_of_contains_false hcond.2
      · rw [hdrop, ht, List.append_assoc]
        rfl
    · exact Option.noConfusion h
  · exact Option.noConfusion h

theorem pyWalk_root_shape {lfs : LocalFS} {p : Str}
    {rdf : Str × List Str × List Str} (h : rdf ∈ pyWalk lfs p) :
    (rdf.1 = p ∨ ((∃ s, rdf.1 = p ++ '/' :: s) ∧ rdf.1 ∈ lfs.dirs)) ∧
    rdf.2.2 = lfs.files.filterMap (childNameOf rdf.1) := by
  unfold pyWalk at h
  split at h
  · obtain ⟨r, hr, rfl⟩ := List.mem_map.mp h
    refine ⟨?_, rfl⟩
    rcases List.mem_cons.mp hr with rfl | hr2
    · exact Or.inl rfl
    · have hr3 := List.mem_filter.mp hr2
      refine Or.inr ⟨?_, hr3.1⟩
      obtain ⟨t, ht⟩ := ex_of_isPrefixOf _ _ hr3.2
      exact ⟨t, by rw [ht, List.append_assoc]; rfl⟩
  · exact absurd h (List.not_mem_nil _)

theorem flatMap_ext {α β : Type} {l : List α} {f g : α → List β}
    (h : ∀ x ∈ l, f x = g x) : l.flatMap f = l.flatMap g := by
  induction l with
  | nil => rfl
  | cons a t ih =>
    simp only [List.flatMap_cons]
    rw [h a (List.mem_cons_self a t), ih (fun x hx => h x (List.mem_cons_of_mem a hx))]

theorem s3_rm_dry_shape (keys : List Str) (path : Str) :
    (∃ e, s3_rm keys path true = .error e) ∨
    (∃ n, s3_rm keys path true = .ok (keys, some n)) := by
  unfold s3_rm
  split
  · exact Or.inl ⟨_, rfl⟩
  · rcases hls : s3_ls keys path false true with e | L
    · exact Or.inl ⟨e, rfl⟩
    · exact Or.inr ⟨L.length, rfl⟩

/-! ## Claim theorems -/

/-- C1, counterexample: classifying the normalized form of a path does NOT
always agree with classifying the path itself — `_norm_s3_path` strips the
scheme, so the Remote path `s3://bucket/key` normalizes to `bucket/key`,
which is classified Local. -/
theorem c1_counterexample :
    is_s3path ("s3://bucket/key".data) = true ∧
    is_s3path (_norm_s3_path ("s3://bucket/key".data)) = false :=
  ⟨rfl, rfl⟩

/-- C1, amended: the normalized form of ANY path is classified Local
(`normpath` output can never start with `s3://` or `s3n://`), so
classification is preserved by normalization exactly for Local paths and
changes from Remote to Local for every Remote path. -/
theorem c1_normalized_path_is_local (p : Str) :
    is_s3path (_norm_s3_path p) = false :=
  normpath_not_s3 _

/-- C2: in the remote→local single-file direction the `overwrite = false`
pre-check calls `local.already_exists(to_path, fs)` with two arguments — a
`TypeError` in Python — so the copy fails with `TypeError` rather than the
claimed typed already-exists error, and it does so even though the
destination does not exist (second conjunct); with `overwrite = true` the
very same copy succeeds (third conjunct). -/
theorem c2_remote_to_local_single_file_type_error :
    io_cp ⟨["b/src.txt".data], ⟨[], []⟩, []⟩ ("s3://b/src.txt".data)
        ("dst.txt".data) false true none none = .error .typeError ∧
    local_already_exists (⟨[], []⟩ : LocalFS) [] ("dst.txt".data) = false ∧
    io_cp ⟨["b/src.txt".data], ⟨[], []⟩, []⟩ ("s3://b/src.txt".data)
        ("dst.txt".data) true true none none
      = .ok ⟨["b/src.txt".data], ⟨[], ["dst.txt".data]⟩, []⟩ :=
  ⟨rfl, rfl, rfl⟩

/-- C3: in the remote→remote single-file case with `overwrite = false` and
an existing destination, the raise statement's f-string names the undefined
variable `to_file`, so Python raises `UnboundLocalError` (a `NameError`)
instead of the claimed typed already-exists error (first conjunct).  The
other parts of the claim hold: the single-file copy proceeds when the
destination does not exist (second conjunct), and in the directory case the
planned destinations are pre-checked and the call fails with `ValueError`
before any copy when one exists (third conjunct), while a clean plan fans
out all copies (fourth conjunct). -/
theorem c3_remote_to_remote_single_file_name_error :
    _s3_to_s3_cp ["b/src".data, "b/dst".data] ("s3://b/src".data)
        ("s3://b/dst".data) false = .error .nameError ∧
    _s3_to_s3_cp ["b/src".data] ("s3://b/src".data) ("s3://b/dst".data) false
      = .ok ["b/src".data, "b/dst".data] ∧
    _s3_to_s3_cp ["b/src/f1".data, "b/src/f2".data, "b/dst/f2".data]
        ("s3://b/src".data) ("s3://b/dst".data) false = .error .valueError ∧
    _s3_to_s3_cp ["b/src/f1".data, "b/src/f2".data] ("s3://b/src".data)
        ("s3://b/dst".data) false
      = .ok ["b/src/f1".data, "b/src/f2".data, "b/dst/f1".data, "b/dst/f2".data] :=
  ⟨rfl, rfl, rfl, rfl⟩

/-- C4: local remove's two-tier error policy.  For a non-directory path, a
real (non-dry-run) remove whose underlying `os.remove` raises `OSError`
still returns normally with the filesystem unchanged (the error is caught
and logged); for a directory path, a failure of `shutil.rmtree` propagates
to the caller unchanged. -/
theorem c4_local_rm_two_tier_error_policy
    (lfs : LocalFS) (home path : Str) (removeErr rmtreeErr : Option PyErr)
    (e : PyErr) :
    (lfs.dirs.contains (_norm_path home path) = false →
      local_rm lfs home path false (some .osError) rmtreeErr = .ok (lfs, none)) ∧
    (lfs.dirs.contains (_norm_path home path) = true →
      local_rm lfs home path false removeErr (some e) = .error e) := by
  constructor
  · intro h
    have h2 : _norm_path home path ∉ lfs.dirs := by simpa using h
    simp [local_rm, local_ls, h, h2]
  · intro h
    have h2 : _norm_path home path ∈ lfs.dirs := by simpa using h
    simp [local_rm, local_ls, h, h2]

theorem c4_witness :
    ((⟨[], ["a.txt".data]⟩ : LocalFS).dirs.contains
        (_norm_path [] ("a.txt".data)) = false ∧
      local_rm ⟨[], ["a.txt".data]⟩ [] ("a.txt".data) false (some .osError) none
        = .ok (⟨[], ["a.txt".data]⟩, none)) ∧
    ((⟨["d".data], []⟩ : LocalFS).dirs.contains (_norm_path [] ("d".data)) = true ∧
      local_rm ⟨["d".data], []⟩ [] ("d".data) false none (some .osError)
        = .error .osError) :=
  ⟨⟨by decide,
    (c4_local_rm_two_tier_error_policy ⟨[], ["a.txt".data]⟩ [] ("a.txt".data)
      none none PyErr.osError).1 (by decide)⟩,
   ⟨by decide,
    (c4_local_rm_two_tier_error_policy ⟨["d".data], []⟩ [] ("d".data)
      none none PyErr.osError).2 (by decide)⟩⟩

/-- C10: for a local path that exists as a regular file (and is not a
directory), a dry-run remove reports a count of 0 — the count is the length
of a recursive listing, and `os.walk` yields nothing for a non-directory —
while a real remove of the same path deletes exactly that one file. -/
theorem c10_rm_dry_run_counts_zero_for_file
    (lfs : LocalFS) (home path : Str) (removeErr rmtreeErr : Option PyErr)
    (hnorm : _norm_path home (_norm_path home path) = _norm_path home path)
    (hf : lfs.files.contains (_norm_path home path) = true)
    (hd : lfs.dirs.contains (_norm_path home path) = false) :
    local_rm lfs home path true removeErr rmtreeErr = .ok (lfs, some 0) ∧
    local_rm lfs home path false none rmtreeErr
      = .ok ({ lfs with files := lfs.files.erase (_norm_path home path) }, none) ∧
    (lfs.files.erase (_norm_path home path)).length + 1 = lfs.files.length := by
  have hmem : _norm_path home path ∈ lfs.files := by simpa using hf
  have hd2 : _norm_path home path ∉ lfs.dirs := by simpa using hd
  refine ⟨?_, ?_, ?_⟩
  · simp [local_rm, local_ls, pyWalk, hnorm, hd, hd2]
  · simp [local_rm, local_ls, hd, hd2]
  · have hlen := List.length_erase_of_mem hmem
    have hpos : 0 < lfs.files.length := List.length_pos.mpr
      (List.ne_nil_of_mem hmem)
    omega

theorem c10_witness :
    local_rm ⟨[], ["a.txt".data]⟩ [] ("a.txt".data) true none none
      = .ok (⟨[], ["a.txt".data]⟩, some 0) ∧
    local_rm ⟨[], ["a.txt".data]⟩ [] ("a.txt".data) false none none
      = .ok (⟨[], []⟩, none) := by
  have h := c10_rm_dry_run_counts_zero_for_file ⟨[], ["a.txt".data]⟩ []
    ("a.txt".data) none none (by decide) (by decide) (by decide)
  exact ⟨h.1, h.2.1⟩

/-- C5: whenever a remote listing succeeds, the returned names are in
non-decreasing lexicographic order (Python's `sorted` is applied to the
final relative or full names, for directories and single files, recursive
or not) — a determinism guarantee independent of the order the store
reports keys in. -/
theorem c5_s3_ls_sorted (keys : List Str) (path : Str) (full_path recursive : Bool)
    (l : List Str) (h : s3_ls keys path full_path recursive = .ok l) :
    l.Pairwise strLeP := by
  unfold s3_ls at h
  split at h
  · exact Except.noConfusion h
  · split at h
    · exact Except.noConfusion h
    · split at h
      · exact Except.noConfusion h
      · injection h with h2
        rw [← h2]
        exact List.sorted_insertionSort strLeP _

theorem c5_witness :
    s3_ls ["b/d/z".data, "b/d/a".data] ("s3://b/d".data) false true
      = .ok ["a".data, "z".data] ∧
    (["a".data, "z".data] : List Str).Pairwise strLeP :=
  ⟨rfl, c5_s3_ls_sorted ["b/d/z".data, "b/d/a".data] ("s3://b/d".data) false true
    ["a".data, "z".data] rfl⟩

/-- C6, counterexample: a dry-run remove does NOT report a count for every
path and state — on a remote path whose key/prefix does not exist, the
count listing raises the client's `ValueError` out of `ls` before the
dry-run branch is reached, so nothing is reported. -/
theorem c6_counterexample :
    io_rm ⟨[], ⟨[], []⟩, []⟩ ("s3://b/missing".data) true none none
      = .error .valueError :=
  rfl

/-- C6, amended: a dry-run remove never mutates any file or key — every
outcome is either an error raised before any deletion, or a normal return
with the whole state unchanged and a count (first conjunct); because the
state comes back unchanged, an immediately repeated dry run is the very
same computation and reports the same count.  A dry run on a local path
always reports a count (second conjunct), and a dry run on a remote path
reports exactly the length of the recursive listing whenever that listing
succeeds (third conjunct); it errors only when the listing raises, as on a
nonexistent key/prefix. -/
theorem c6_rm_dry_run_pure (w : World) (path : Str)
    (removeErr rmtreeErr : Option PyErr) :
    ((∃ e, io_rm w path true removeErr rmtreeErr = .error e) ∨
      (∃ n, io_rm w path true removeErr rmtreeErr = .ok (w, some n))) ∧
    (is_s3path path = false →
      ∃ n, io_rm w path true removeErr rmtreeErr = .ok (w, some n)) ∧
    (is_s3path path = true → ∀ L, s3_ls w.s3keys path false true = .ok L →
      io_rm w path true removeErr rmtreeErr = .ok (w, some L.length)) := by
  refine ⟨?_, ?_, ?_⟩
  · unfold io_rm
    split
    · rcases s3_rm_dry_shape w.s3keys path with ⟨e, he⟩ | ⟨n, hn⟩
      · exact Or.inl ⟨e, by rw [he]⟩
      · exact Or.inr ⟨n, by rw [hn]⟩
    · exact Or.inr ⟨_, rfl⟩
  · intro h
    unfold io_rm
    rw [if_neg (by simp [h])]
    exact ⟨_, rfl⟩
  · intro hs L hL
    unfold io_rm
    rw [if_pos hs]
    have hrm : s3_rm w.s3keys path true = .ok (w.s3keys, some L.length) := by
      unfold s3_rm
      rw [if_neg (by simp [hs]), hL]
      rfl
    rw [hrm]

theorem c6_witness :
    ((is_s3path ("a.txt".data) = false) ∧
      (∃ n, io_rm ⟨[], ⟨[], ["a.txt".data]⟩, []⟩ ("a.txt".data) true none none
        = .ok (⟨[], ⟨[], ["a.txt".data]⟩, []⟩, some n))) ∧
    ((is_s3path ("s3://b/d".data) = true) ∧
      io_rm ⟨["b/d/x".data], ⟨[], []⟩, []⟩ ("s3://b/d".data) true none none
        = .ok (⟨["b/d/x".data], ⟨[], []⟩, []⟩, some 1)) :=
  ⟨⟨by decide,
    (c6_rm_dry_run_pure ⟨[], ⟨[], ["a.txt".data]⟩, []⟩ ("a.txt".data)
      none none).2.1 (by decide)⟩,
   ⟨by decide,
    (c6_rm_dry_run_pure ⟨["b/d/x".data], ⟨[], []⟩, []⟩ ("s3://b/d".data)
      none none).2.2 (by decide) ["x".data] rfl⟩⟩

/-- C7: `is_dir` fails with a `ValueError` on every path not classified
Remote.  On Remote paths it returns `false` exactly when the client listing
of the normalized path YIELDS the one-element listing containing the
normalized path itself (a file), and `true` exactly when the listing yields
anything else; when the listing itself raises (a nonexistent key/prefix),
`is_dir` returns neither — it propagates the client's error unchanged. -/
theorem c7_is_dir_spec (keys : List Str) (path : Str) :
    (is_s3path path = false → is_dir keys path = .error .valueError) ∧
    (is_s3path path = true →
      (is_dir keys path = .ok false ↔
        s3fsLs keys (_norm_s3_path path) = .ok [_norm_s3_path path]) ∧
      (is_dir keys path = .ok true ↔
        (∃ lst, s3fsLs keys (_norm_s3_path path) = .ok lst ∧
          lst ≠ [_norm_s3_path path])) ∧
      (∀ e, s3fsLs keys (_norm_s3_path path) = .error e →
        is_dir keys path = .error e)) := by
  constructor
  · intro h
    simp [is_dir, h]
  · intro h
    rcases hls : s3fsLs keys (_norm_s3_path path) with e | lst
    · refine ⟨?_, ?_, ?_⟩
      · exact iff_of_false (by simp [is_dir, h, hls]) (fun hd => Except.noConfusion hd)
      · refine iff_of_false (by simp [is_dir, h, hls]) ?_
        rintro ⟨lst, hlst, -⟩
        exact Except.noConfusion hlst
      · intro e2 he2
        injection he2 with he3
        simp [is_dir, h, hls, he3]
    · by_cases hl : lst = [_norm_s3_path path]
      · refine ⟨?_, ?_, ?_⟩
        · exact iff_of_true (by simp [is_dir, h, hls, hl]) (by rw [hl])
        · refine iff_of_false (by simp [is_dir, h, hls, hl]) ?_
          rintro ⟨lst2, hlst2, hne2⟩
          exact hne2 ((Except.ok.inj hlst2) ▸ hl)
        · intro e2 he2
          exact Except.noConfusion he2
      · refine ⟨?_, ?_, ?_⟩
        · exact iff_of_false (by simp [is_dir, h, hls, hl])
            (fun hd => hl (Except.ok.inj hd))
        · exact iff_of_true (by simp [is_dir, h, hls, hl]) ⟨lst, rfl, hl⟩
        · intro e2 he2
          exact Except.noConfusion he2

theorem c7_witness :
    is_dir ["b/d/a".data] ("s3://b/d".data) = .ok true ∧
    is_dir ["b/d/a".data] ("b/d".data) = .error .valueError ∧
    is_dir ["b/d/a".data] ("s3://b/missing".data) = .error .valueError :=
  ⟨((c7_is_dir_spec ["b/d/a".data] ("s3://b/d".data)).2 (by decide)).2.1.mpr
      ⟨["b/d/a".data], rfl, by decide⟩,
   (c7_is_dir_spec ["b/d/a".data] ("b/d".data)).1 (by decide),
   ((c7_is_dir_spec ["b/d/a".data] ("s3://b/missing".data)).2 (by decide)).2.2
      .valueError rfl⟩

/-- C8, counterexample: a recursive full-path listing's entries are NOT
always prefixed by `dir` as given — listing `./foo` returns entries under
the normalized name `foo`, which the literal string `./foo` is not a
prefix of. -/
theorem c8_counterexample :
    local_ls ⟨["foo".data], ["foo/bar".data]⟩ [] ("./foo".data) true true
      = .ok ["foo/bar".data] ∧
    ("./foo".data).isPrefixOf ("foo/bar".data) = false :=
  ⟨rfl, rfl⟩

/-- C8, amended: for a directory, the recursive listings with and without
`fullPath` name the same underlying files — locally the full listing is
exactly the relative listing with the normalized directory path glued in
front of every entry, and remotely both listings are permutations of the
same walked key list under the two name mappings (so they have equal
length) — and every full-path entry is prefixed by the NORMALIZED form of
`dir` (home-expanded and normalized locally; `s3://` plus the
scheme-stripped prefix remotely), not necessarily by `dir` verbatim. -/
theorem c8_listing_correspondence :
    (∀ (lfs : LocalFS) (home dir : Str),
      (∀ d ∈ lfs.dirs, d.getLast? ≠ some '/') →
      _norm_path home dir ≠ [] →
      (_norm_path home dir).getLast? ≠ some '/' →
      ∃ F R, local_ls lfs home dir true true = .ok F ∧
        local_ls lfs home dir false true = .ok R ∧
        F = R.map (fun r => _norm_path home dir ++ '/' :: r) ∧
        ∀ e ∈ F, (_norm_path home dir ++ ['/']).isPrefixOf e = true) ∧
    (∀ (keys : List Str) (dir : Str),
      is_s3path dir = true →
      is_dir keys dir = .ok true →
      (∀ k ∈ keys, k.head? ≠ some '/') →
      ∃ lF lR, s3_ls keys dir true true = .ok lF ∧
        s3_ls keys dir false true = .ok lR ∧
        lF.Perm ((s3fsWalk keys dir).map (fun f => pjoin ("s3://".data) f)) ∧
        lR.Perm ((s3fsWalk keys dir).map (fun f =>
          replaceAll (_norm_s3_path dir ++ ['/']) [] f)) ∧
        lF.length = lR.length ∧
        ∀ e ∈ lF,
          (("s3://".data ++ stripScheme dir) ++ ['/']).isPrefixOf e = true) := by
  constructor
  · intro lfs home dir hw hne hnl
    have key : ∀ rdf ∈ pyWalk lfs (_norm_path home dir), ∀ f ∈ rdf.2.2,
        pjoin rdf.1 f
          = _norm_path home dir ++ '/' ::
              ((pjoin rdf.1 f).drop ((_norm_path home dir).length + 1)) ∧
        (_norm_path home dir ++ ['/']).isPrefixOf (pjoin rdf.1 f) = true := by
      intro rdf hrdf f hf
      obtain ⟨hroot, hfiles⟩ := pyWalk_root_shape hrdf
      rw [hfiles] at hf
      obtain ⟨e, _, hcn⟩ := List.mem_filterMap.mp hf
      obtain ⟨hfne, hfns, _⟩ := childNameOf_some hcn
      have hfh : f.head? ≠ some '/' := by
        cases f with
        | nil => simp
        | cons a t =>
          intro hh
          simp only [List.head?_cons, Option.some.injEq] at hh
          exact hfns (hh ▸ List.mem_cons_self a t)
      rcases hroot with hr | ⟨⟨s, hs⟩, hmem⟩
      · rw [hr, pjoin_eq_append hne hnl hfh]
        exact ⟨by rw [drop_after], prefixOf_slash_cons _ f⟩
      · have hrne : rdf.1 ≠ [] := by simp [hs]
        have hrl : rdf.1.getLast? ≠ some '/' := hw rdf.1 hmem
        rw [pjoin_eq_append hrne hrl hfh, hs]
        have hshape : (_norm_path home dir ++ '/' :: s) ++ '/' :: f
            = _norm_path home dir ++ '/' :: (s ++ '/' :: f) := by
          simp [List.append_assoc]
        rw [hshape, drop_after]
        exact ⟨rfl, prefixOf_slash_cons _ _⟩
    refine ⟨(pyWalk lfs (_norm_path home dir)).flatMap
        (fun rdf => rdf.2.2.map (fun f => pjoin rdf.1 f)),
      (pyWalk lfs (_norm_path home dir)).flatMap
        (fun rdf => rdf.2.2.map
          (fun f => (pjoin rdf.1 f).drop ((_norm_path home dir).length + 1))),
      rfl, rfl, ?_, ?_⟩
    · rw [List.map_flatMap]
      apply flatMap_ext
      intro rdf hrdf
      rw [List.map_map]
      apply List.map_congr_left
      intro f hf
      exact (key rdf hrdf f hf).1
    · intro e he
      obtain ⟨rdf, hrdf, hf'⟩ := List.mem_flatMap.mp he
      obtain ⟨f, hf, rfl⟩ := List.mem_map.mp hf'
      exact (key rdf hrdf f hf).2
  · intro keys dir hs hd hk
    have hfull : s3_ls keys dir true true
        = .ok (pySorted ((s3fsWalk keys dir).map
            (fun f => pjoin ("s3://".data) f))) := by
      unfold s3_ls
      rw [if_neg (by simp [hs]), hd]
      rfl
    have hrel : s3_ls keys dir false true
        = .ok (pySorted ((s3fsWalk keys dir).map
            (fun f => replaceAll (_norm_s3_path dir ++ ['/']) [] f))) := by
      unfold s3_ls
      rw [if_neg (by simp [hs]), hd]
      rfl
    refine ⟨_, _, hfull, hrel, List.perm_insertionSort strLeP _,
      List.perm_insertionSort strLeP _, ?_, ?_⟩
    · have l1 := (List.perm_insertionSort strLeP
        ((s3fsWalk keys dir).map (fun f => pjoin ("s3://".data) f))).length_eq
      have l2 := (List.perm_insertionSort strLeP
        ((s3fsWalk keys dir).map
          (fun f => replaceAll (_norm_s3_path dir ++ ['/']) [] f))).length_eq
      simp only [pySorted, l1, l2, List.length_map]
    · intro e he
      have he2 : e ∈ (s3fsWalk keys dir).map (fun f => pjoin ("s3://".data) f) :=
        (List.perm_insertionSort strLeP _).mem_iff.mp he
      obtain ⟨k, hkw, rfl⟩ := List.mem_map.mp he2
      have hkk := List.mem_filter.mp hkw
      have hkh : k.head? ≠ some '/' := hk k hkk.1
      rw [pjoin_s3root k hkh]
      obtain ⟨t, ht⟩ := ex_of_isPrefixOf _ _ hkk.2
      rw [ht]
      rw [← List.append_assoc, ← List.append_assoc]
      exact isPrefixOf_append (("s3://".data ++ stripScheme dir) ++ ['/']) t

theorem c8_witness :
    (∃ F R, local_ls ⟨["data".data], ["data/a.txt".data]⟩ [] ("data".data)
        true true = .ok F ∧
      local_ls ⟨["data".data], ["data/a.txt".data]⟩ [] ("data".data)
        false true = .ok R ∧
      F = R.map (fun r => _norm_path [] ("data".data) ++ '/' :: r) ∧
      ∀ e ∈ F, (_norm_path [] ("data".data) ++ ['/']).isPrefixOf e = true) ∧
    (∃ lF lR, s3_ls ["b/d/a".data] ("s3://b/d".data) true true = .ok lF ∧
      s3_ls ["b/d/a".data] ("s3://b/d".data) false true = .ok lR ∧
      lF.Perm ((s3fsWalk ["b/d/a".data] ("s3://b/d".data)).map
        (fun f => pjoin ("s3://".data) f)) ∧
      lR.Perm ((s3fsWalk ["b/d/a".data] ("s3://b/d".data)).map
        (fun f => replaceAll (_norm_s3_path ("s3://b/d".data) ++ ['/']) [] f)) ∧
      lF.length = lR.length ∧
      ∀ e ∈ lF,
        (("s3://".data ++ stripScheme ("s3://b/d".data)) ++ ['/']).isPrefixOf e
          = true) :=
  ⟨c8_listing_correspondence.1 ⟨["data".data], ["data/a.txt".data]⟩ []
      ("data".data) (by decide) (by decide) (by decide),
   c8_listing_correspondence.2 ["b/d/a".data] ("s3://b/d".data)
      (by decide) rfl (by decide)⟩

/-- C9, counterexample: a path with NO extension does not always fail —
`"csv".split(".")[-1]` is the whole name `csv`, which the inference table
accepts, so loading or saving a file literally named `csv` infers the csv
format instead of raising the claimed error. -/
theorem c9_counterexample :
    _file_type_helper ("csv".data) = .ok ("csv".data) ∧
    (pySplit '.' ("csv".data)).length = 1 :=
  ⟨rfl, rfl⟩

/-- C9, amended: with no explicit hint, the format is inferred from the
substring after the LAST `.` of the path — which is the whole name when the
path has no dot — via the table pkl→pickle, csv→csv, json→json,
parquet/parq→parquet, txt→raw; exactly when that segment is not in the
table the call fails with a `ValueError`, and both `load_object` and
`save_object` (with `overwrite` true) then return that error having
performed no content read or write (empty effect trace). -/
theorem c9_format_inference (w : World) (obj : PyObj) (p : Str) :
    (_file_type_helper p = .ok ("pickle".data) ↔
      (pySplit '.' p).getLastD [] = "pkl".data) ∧
    (_file_type_helper p = .ok ("csv".data) ↔
      (pySplit '.' p).getLastD [] = "csv".data) ∧
    (_file_type_helper p = .ok ("json".data) ↔
      (pySplit '.' p).getLastD [] = "json".data) ∧
    (_file_type_helper p = .ok ("parquet".data) ↔
      ((pySplit '.' p).getLastD [] = "parquet".data ∨
        (pySplit '.' p).getLastD [] = "parq".data)) ∧
    (_file_type_helper p = .ok ("raw".data) ↔
      (pySplit '.' p).getLastD [] = "txt".data) ∧
    (_file_type_helper p = .error .valueError ↔
      ¬ (pySplit '.' p).getLastD [] ∈
        (["pkl".data, "csv".data, "json".data, "parquet".data, "parq".data,
          "txt".data] : List Str)) ∧
    (∀ e, _file_type_helper p = .error e →
      load_object w p none = ([], .error e)) ∧
    (∀ e, _file_type_helper p = .error e →
      save_object w obj p none true = ([], .error e)) := by
  have hload : ∀ e, _file_type_helper p = .error e →
      load_object w p none = ([], .error e) := by
    intro e he
    simp only [load_object]
    rw [he]
  have hsave : ∀ e, _file_type_helper p = .error e →
      save_object w obj p none true = ([], .error e) := by
    intro e he
    simp only [save_object, Bool.not_true, Bool.false_and, Bool.false_eq_true,
      if_false]
    rw [he]
  by_cases h1 : (pySplit '.' p).getLastD [] = "pkl".data
  · have hv : _file_type_helper p = .ok ("pickle".data) := by
      simp only [_file_type_helper]
      rw [if_pos h1]
    rw [hv]
    exact ⟨iff_of_true (by decide) h1,
      iff_of_false (by decide) (ne_of_eq_of_ne h1 (by decide)),
      iff_of_false (by decide) (ne_of_eq_of_ne h1 (by decide)),
      iff_of_false (by decide) (fun h => h.elim
        (ne_of_eq_of_ne h1 (by decide)) (ne_of_eq_of_ne h1 (by decide))),
      iff_of_false (by decide) (ne_of_eq_of_ne h1 (by decide)),
      iff_of_false (by decide) (fun hn => hn (by rw [h1]; decide)),
      hv ▸ hload, hv ▸ hsave⟩
  · by_cases h2 : (pySplit '.' p).getLastD [] = "csv".data
    · have hv : _file_type_helper p = .ok ("csv".data) := by
        simp only [_file_type_helper]
        rw [if_neg h1, if_pos h2]
      rw [hv]
      exact ⟨iff_of_false (by decide) (ne_of_eq_of_ne h2 (by decide)),
        iff_of_true (by decide) h2,
        iff_of_false (by decide) (ne_of_eq_of_ne h2 (by decide)),
        iff_of_false (by decide) (fun h => h.elim
          (ne_of_eq_of_ne h2 (by decide)) (ne_of_eq_of_ne h2 (by decide))),
        iff_of_false (by decide) (ne_of_eq_of_ne h2 (by decide)),
        iff_of_false (by decide) (fun hn => hn (by rw [h2]; decide)),
        hv ▸ hload, hv ▸ hsave⟩
    · by_cases h3 : (pySplit '.' p).getLastD [] = "json".data
      · have hv : _file_type_helper p = .ok ("json".data) := by
          simp only [_file_type_helper]
          rw [if_neg h1, if_neg h2, if_pos h3]
        rw [hv]
        exact ⟨iff_of_false (by decide) (ne_of_eq_of_ne h3 (by decide)),
          iff_of_false (by decide) (ne_of_eq_of_ne h3 (by decide)),
          iff_of_true (by decide) h3,
          iff_of_false (by decide) (fun h => h.elim
            (ne_of_eq_of_ne h3 (by decide)) (ne_of_eq_of_ne h3 (by decide))),
          iff_of_false (by decide) (ne_of_eq_of_ne h3 (by decide)),
          iff_of_false (by decide) (fun hn => hn (by rw [h3]; decide)),
          hv ▸ hload, hv ▸ hsave⟩
      · by_cases h4 : (pySplit '.' p).getLastD [] = "parquet".data
        · have hv : _file_type_helper p = .ok ("parquet".data) := by
            simp only [_file_type_helper]
            rw [if_neg h1, if_neg h2, if_neg h3, if_pos h4]
          rw [hv]
          exact ⟨iff_of_false (by decide) (ne_of_eq_of_ne h4 (by decide)),
            iff_of_false (by decide) (ne_of_eq_of_ne h4 (by decide)),
            iff_of_false (by decide) (ne_of_eq_of_ne h4 (by decide)),
            iff_of_true (by decide) (Or.inl h4),
            iff_of_false (by decide) (ne_of_eq_of_ne h4 (by decide)),
            iff_of_false (by decide) (fun hn => hn (by rw [h4]; decide)),
            hv ▸ hload, hv ▸ hsave⟩
        · by_cases h5 : (pySplit '.' p).getLastD [] = "parq".data
          · have hv : _file_type_helper p = .ok ("parquet".data) := by
              simp only [_file_type_helper]
              rw [if_neg h1, if_neg h2, if_neg h3, if_neg h4, if_pos h5]
            rw [hv]
            exact ⟨iff_of_false (by decide) (ne_of_eq_of_ne h5 (by decide)),
              iff_of_false (by decide) (ne_of_eq_of_ne h5 (by decide)),
              iff_of_false (by decide) (ne_of_eq_of_ne h5 (by decide)),
              iff_of_true (by decide) (Or.inr h5),
              iff_of_false (by decide) (ne_of_eq_of_ne h5 (by decide)),
              iff_of_false (by decide) (fun hn => hn (by rw [h5]; decide)),
              hv ▸ hload, hv ▸ hsave⟩
          · by_cases h6 : (pySplit '.' p).getLastD [] = "txt".data
            · have hv : _file_type_helper p = .ok ("raw".data) := by
                simp only [_file_type_helper]
                rw [if_neg h1, if_neg h2, if_neg h3, if_neg h4, if_neg h5,
                  if_pos h6]
              rw [hv]
              exact ⟨iff_of_false (by decide) (ne_of_eq_of_ne h6 (by decide)),
                iff_of_false (by decide) (ne_of_eq_of_ne h6 (by decide)),
                iff_of_false (by decide) (ne_of_eq_of_ne h6 (by decide)),
                iff_of_false (by decide) (fun h => h.elim
                  (ne_of_eq_of_ne h6 (by decide)) (ne_of_eq_of_ne h6 (by decide))),
                iff_of_true (by decide) h6,
                iff_of_false (by decide) (fun hn => hn (by rw [h6]; decide)),
                hv ▸ hload, hv ▸ hsave⟩
            · have hv : _file_type_helper p = .error .valueError := by
                simp only [_file_type_helper]
                rw [if_neg h1, if_neg h2, if_neg h3, if_neg h4, if_neg h5,
                  if_neg h6]
              rw [hv]
              exact ⟨iff_of_false (by decide) h1,
                iff_of_false (by decide) h2,
                iff_of_false (by decide) h3,
                iff_of_false (by decide) (fun h => h.elim h4 h5),
                iff_of_false (by decide) h6,
                iff_of_true (by decide)
                  (by
                    intro hmem
                    simp only [List.mem_cons, List.not_mem_nil, or_false] at hmem
                    rcases hmem with h | h | h | h | h | h
                    · exact h1 h
                    · exact h2 h
                    · exact h3 h
                    · exact h4 h
                    · exact h5 h
                    · exact h6 h),
                hv ▸ hload, hv ▸ hsave⟩

theorem c9_witness :
    _file_type_helper ("report.parq".data) = .ok ("parquet".data) ∧
    _file_type_helper ("archive.tar.gz".data) = .error .valueError ∧
    load_object ⟨[], ⟨[], []⟩, []⟩ ("archive.tar.gz".data) none
      = ([], .error .valueError) ∧
    save_object ⟨[], ⟨[], []⟩, []⟩ PyObj.other ("archive.tar.gz".data) none true
      = ([], .error .valueError) :=
  ⟨(c9_format_inference ⟨[], ⟨[], []⟩, []⟩ PyObj.other
      ("report.parq".data)).2.2.2.1.mpr (Or.inr (by decide)),
   (c9_format_inference ⟨[], ⟨[], []⟩, []⟩ PyObj.other
      ("archive.tar.gz".data)).2.2.2.2.2.1.mpr (by decide),
   (c9_format_inference ⟨[], ⟨[], []⟩, []⟩ PyObj.other
      ("archive.tar.gz".data)).2.2.2.2.2.2.1 .valueError (by decide),
   (c9_format_inference ⟨[], ⟨[], []⟩, []⟩ PyObj.other
      ("archive.tar.gz".data)).2.2.2.2.2.2.2 .valueError (by decide)⟩
